import Mathlib

/-!
Verification of the menu-tree model, parsing pipeline, navigation state
machine and action-collection pipeline of `arch_post_install` (`main.cpp`),
shallowly embedded in Lean 4.
-/

set_option linter.unusedVariables false

namespace ArchPostInstall

/-! ## YAML document model

A parsed YAML document as seen through the yaml-cpp API used by the program:
scalars, sequences, mappings (ordered key/value lists, keys arbitrary nodes)
and null nodes (a key present with an empty value). -/

inductive Yaml where
  | scalar (s : String)
  | seq (xs : List Yaml)
  | map (kvs : List (Yaml × Yaml))
  | null
deriving Repr

/-- Key comparison as used by `node["key"]`: the entry matches when its key
node is a scalar equal to the requested string. -/
def Yaml.isScalarEq : Yaml → String → Bool
  | .scalar s, k => s == k
  | _, _ => false

/-- First-match lookup among a mapping's entries. -/
def lookupYaml : List (Yaml × Yaml) → String → Option Yaml
  | [], _ => none
  | (key, v) :: rest, k => if key.isScalarEq k then some v else lookupYaml rest k

/-- `node["key"]`: defined lookup result on mappings, undefined (`none`)
on every other node kind. -/
def Yaml.get : Yaml → String → Option Yaml
  | .map kvs, k => lookupYaml kvs k
  | _, _ => none

/-- `node.IsMap()`. -/
def Yaml.isMap : Yaml → Bool
  | .map _ => true
  | _ => false

/-- `node.as<bool>()` as yaml-cpp's `convert<bool>::decode` accepts it;
`none` models the `BadConversion` exception. -/
def yamlAsBool (s : String) : Option Bool :=
  if s ∈ ["y", "Y", "yes", "Yes", "YES", "true", "True", "TRUE", "on", "On", "ON"] then
    some true
  else if s ∈ ["n", "N", "no", "No", "NO", "false", "False", "FALSE", "off", "Off", "OFF"] then
    some false
  else
    none

/-! ## Configured invocation strings (main.cpp lines 16-22) -/

def AUR_MANAGER : String := "yay --noconfirm --answerdiff=None --answeredit=None"

def AUR_MANAGER_ALIAS : String := "__MGR__"

def NOTIFY_COMMAND : String := "notify-send -i dialog-information -t 5000 -u critical"

def NOTIFY_COMMAND_ALIAS : String := "__NOTIFY__"

/-! ## Actions (main.cpp lines 26-59) -/

inductive Action where
  | yay (pkg : String)
  | sh (commands : List String)
deriving Repr

/-- The join loop of `ShAction::render`: append `cmd + " && "` for each
command, then, when nonempty, erase the final four characters
(`script.erase(script.size() - 4)`). -/
def shJoin (cmds : List String) : String :=
  let script := cmds.foldl (fun acc cmd => acc ++ cmd ++ " && ") ""
  if script.isEmpty then script else ⟨script.data.take (script.data.length - 4)⟩

/-- `Action::render` for both variants: `YayAction::render` (lines 38-40) and
`ShAction::render` (lines 49-58), with `std::regex_replace` on the literal
alias patterns modelled by `String.replace`. -/
def Action.render : Action → String
  | .yay pkg => AUR_MANAGER ++ " -S " ++ pkg
  | .sh cmds =>
    ((shJoin cmds).replace AUR_MANAGER_ALIAS AUR_MANAGER).replace
      NOTIFY_COMMAND_ALIAS NOTIFY_COMMAND

/-- Modelled from the spec: `ShellScript` commands "joined with `\" && \"`". -/
def joinedWithAnd : List String → String
  | [] => ""
  | [c] => c
  | c :: rest => c ++ " && " ++ joinedWithAnd rest

/-! ## Menu tree (main.cpp lines 63-71) -/

inductive ItemType where
  | ITEM_CHECKBOX
  | ITEM_SECTION
deriving Repr, DecidableEq

inductive MenuItem where
  | mk (label : String) (type : ItemType) (checked : Bool)
       (children : List MenuItem) (action : Option Action)
deriving Repr

def MenuItem.label : MenuItem → String
  | .mk l _ _ _ _ => l

def MenuItem.type : MenuItem → ItemType
  | .mk _ t _ _ _ => t

def MenuItem.checked : MenuItem → Bool
  | .mk _ _ c _ _ => c

def MenuItem.children : MenuItem → List MenuItem
  | .mk _ _ _ ch _ => ch

def MenuItem.action : MenuItem → Option Action
  | .mk _ _ _ _ a => a

/-- The default-constructed `MenuItem` (label empty, checkbox, checked,
no children, no action). -/
def defaultMenuItem : MenuItem := .mk "" .ITEM_CHECKBOX true [] none

/-! ## Item parsing (main.cpp lines 73-120) -/

/-- The scalar elements of a `commands` sequence
(`if (cmd && cmd.IsScalar()) cmds.push_back(...)`). -/
def scalarsOf (xs : List Yaml) : List String :=
  xs.filterMap (fun c => match c with | .scalar s => some s | _ => none)

/-- `parse_item` (lines 73-120). The `Except` error models the uncaught
`YAML::BadConversion` thrown by `node["enabled"].as<bool>()`. -/
def parse_item (node : Yaml) : Except String MenuItem :=
  match node with
  | .scalar s => .ok (.mk s .ITEM_CHECKBOX true [] (some (.yay s)))
  | .map kvs =>
    match lookupYaml kvs "name" with
    | some (.scalar n) => do
      let chk ← match lookupYaml kvs "enabled" with
        | some (.scalar e) =>
          match yamlAsBool e with
          | some b => Except.ok b
          | none => Except.error "yaml-cpp: bad conversion"
        | _ => Except.ok true
      let cmds := match lookupYaml kvs "commands" with
        | some (.seq xs) => scalarsOf xs
        | some (.scalar s) => [s]
        | _ => []
      let act := if cmds.isEmpty then Action.yay n else Action.sh cmds
      .ok (.mk n .ITEM_CHECKBOX chk [] (some act))
    | _ => .ok defaultMenuItem
  | _ => .ok defaultMenuItem

/-! ## Section parsing (main.cpp lines 123-169) -/

theorem sizeOf_lookupYaml {kvs : List (Yaml × Yaml)} {k : String} {v : Yaml}
    (h : lookupYaml kvs k = some v) : sizeOf v < sizeOf kvs := by
  induction kvs with
  | nil => simp [lookupYaml] at h
  | cons kv rest ih =>
    obtain ⟨key, w⟩ := kv
    simp only [lookupYaml] at h
    split at h
    · cases h
      simp only [List.cons.sizeOf_spec, Prod.mk.sizeOf_spec]
      omega
    · have := ih h
      simp only [List.cons.sizeOf_spec, Prod.mk.sizeOf_spec]
      omega

theorem sizeOf_get (y : Yaml) (k : String) : sizeOf (Yaml.get y k) ≤ 1 + sizeOf y := by
  cases y with
  | map kvs =>
    simp only [Yaml.get]
    cases hl : lookupYaml kvs k with
    | none => simp
    | some v =>
      have := sizeOf_lookupYaml hl
      simp only [Option.some.sizeOf_spec, Yaml.map.sizeOf_spec]
      omega
  | scalar s => simp [Yaml.get]
  | seq xs => simp [Yaml.get]
  | null => simp [Yaml.get]

/-- The items loop of `parse_section` (the body of lines 157-159): every
element of an `items` sequence is parsed and appended in order. -/
def parse_item_list : List Yaml → Except String (List MenuItem)
  | [] => .ok []
  | x :: xs => do
    let i ← parse_item x
    let rest ← parse_item_list xs
    .ok (i :: rest)

/-- Lines 155-163: an `items` value contributes its parsed sequence elements,
or a single parsed item when it is a scalar, and nothing otherwise. -/
def parse_items_node : Option Yaml → Except String (List MenuItem)
  | some (.seq xs) => parse_item_list xs
  | some (.scalar s) => do
    let i ← parse_item (.scalar s)
    .ok [i]
  | _ => .ok []

mutual

/-- `parse_section` (lines 123-169): mappings are iterated entry by entry,
anything else yields no items. -/
def parse_section : Yaml → Except String (List MenuItem)
  | .map kvs => parse_entries kvs
  | _ => .ok []
termination_by y => sizeOf y

/-- The entry loop of `parse_section` (lines 130-166): non-scalar keys are
skipped; each scalar-keyed body becomes a `Section` whose children are the
`sections`-derived nodes followed by the `items`-derived nodes. -/
def parse_entries : List (Yaml × Yaml) → Except String (List MenuItem)
  | [] => .ok []
  | (key, body) :: rest =>
    match key with
    | .scalar name => do
      let subs ← parse_subsections (Yaml.get body "sections")
      let its ← parse_items_node (Yaml.get body "items")
      let tail ← parse_entries rest
      .ok (MenuItem.mk name .ITEM_SECTION true (subs ++ its) none :: tail)
    | _ => parse_entries rest
termination_by kvs => sizeOf kvs
decreasing_by
  all_goals simp_wf
  all_goals have := sizeOf_get body "sections"
  all_goals omega

/-- Lines 143-153: a `sections` value is recursed into only when it is a
sequence; a mapping (or anything else) here contributes nothing. -/
def parse_subsections : Option Yaml → Except String (List MenuItem)
  | some (.seq xs) => parse_section_list xs
  | _ => .ok []
termination_by o => sizeOf o

/-- The flattening loop over a sequence of section groups (lines 145-151). -/
def parse_section_list : List Yaml → Except String (List MenuItem)
  | [] => .ok []
  | x :: xs => do
    let a ← parse_section x
    let b ← parse_section_list xs
    .ok (a ++ b)
termination_by xs => sizeOf xs

end

/-- `parse_root` (lines 171-189): a non-mapping document, or one without a
usable `sections` value, yields the empty forest. -/
def parse_root (root : Yaml) : Except String (List MenuItem) :=
  match root with
  | .map kvs =>
    match lookupYaml kvs "sections" with
    | some (.map skvs) => parse_section (.map skvs)
    | some (.seq xs) => parse_section_list xs
    | _ => .ok []
  | _ => .ok []

/-- `parse_after` (lines 191-208): the scalar commands under
`root["after"]["commands"]`. -/
def parse_after (root : Yaml) : List String :=
  match root with
  | .map _ =>
    match (Yaml.get root "after").bind (fun a => Yaml.get a "commands") with
    | some (.seq xs) => scalarsOf xs
    | some (.scalar s) => [s]
    | _ => []
  | _ => []

/-! ## Action collection (main.cpp lines 289-297) -/

mutual

/-- One iteration of the `collect_actions` loop body (lines 290-296). -/
def collect_item : MenuItem → List String
  | .mk _ .ITEM_CHECKBOX c _ a =>
    if c then
      match a with
      | some act => [act.render]
      | none => []
    else []
  | .mk _ .ITEM_SECTION _ ch _ => collect_actions ch

/-- `collect_actions` (lines 289-297), the output accumulator made explicit
as the returned list. -/
def collect_actions : List MenuItem → List String
  | [] => []
  | it :: rest => collect_item it ++ collect_actions rest

end

/-- Lines 420-422 of `main`: the collected commands followed by the trailing
`after` commands. -/
def final_commands (menu : List MenuItem) (after_commands : List String) : List String :=
  collect_actions menu ++ after_commands

/-! ## Spec-side collector (modelled from the spec, for the refinement claim) -/

mutual

/-- Modelled from the spec: the Checkbox leaves of one node in depth-first,
document order; Sections are recursed into regardless of any checked state. -/
def dfsCheckboxes : MenuItem → List MenuItem
  | it@(.mk _ .ITEM_CHECKBOX _ _ _) => [it]
  | .mk _ .ITEM_SECTION _ ch _ => dfsCheckboxesList ch

/-- Modelled from the spec: the Checkbox leaves of a forest in depth-first,
document order. -/
def dfsCheckboxesList : List MenuItem → List MenuItem
  | [] => []
  | it :: rest => dfsCheckboxes it ++ dfsCheckboxesList rest

end

/-- Modelled from the spec: a checked Checkbox leaf carrying an action renders
to a command; unchecked or action-less leaves contribute nothing. -/
def renderIfChecked (it : MenuItem) : Option String :=
  match it.action with
  | some a => if it.checked then some a.render else none
  | none => none

/-- Modelled from the spec: the depth-first, document-order rendering of the
checked leaves carrying an action, followed by the trailing commands. -/
def specFinalCommands (forest : List MenuItem) (trailing : List String) : List String :=
  (dfsCheckboxesList forest).filterMap renderIfChecked ++ trailing

mutual

/-- Every Checkbox in the tree is unchecked. -/
def allUnchecked : MenuItem → Bool
  | .mk _ t c ch _ =>
    (match t with
     | .ITEM_CHECKBOX => !c
     | .ITEM_SECTION => true) && allUncheckedList ch

/-- Every Checkbox in the forest is unchecked. -/
def allUncheckedList : List MenuItem → Bool
  | [] => true
  | it :: rest => allUnchecked it && allUncheckedList rest

end

/-! ## Navigation (main.cpp lines 252-285) -/

inductive Event where
  | up
  | down
  | activate
  | back
  | other
deriving Repr, DecidableEq

inductive StepResult where
  | next (items : List MenuItem) (sel : Nat)
  | enter (items : List MenuItem) (sel : Nat)
  | exit (items : List MenuItem)
  | oob
deriving Repr

/-- `sel.checked = !sel.checked` (line 269) on the node at the cursor. -/
def toggleChecked : MenuItem → MenuItem
  | .mk l t c ch a => .mk l t (!c) ch a

/-- One iteration of the `run_menu` event loop (lines 255-283) on the current
frame: KEY_UP/KEY_DOWN cursor moves, Enter/KEY_RIGHT activation and the
frame-exit keys. `.oob` models `state.items->at(state.selected)` throwing
`std::out_of_range`; `.enter` reports descent into a section's children (the
recursive `run_menu(sel.children)` call, taken only when they are nonempty). -/
def menuStep (items : List MenuItem) (sel : Nat) : Event → StepResult
  | .up => .next items (if sel > 0 then sel - 1 else sel)
  | .down => .next items (if sel < items.length - 1 then sel + 1 else sel)
  | .activate =>
    match items[sel]? with
    | none => .oob
    | some it =>
      match it.type with
      | .ITEM_CHECKBOX => .next (items.set sel (toggleChecked it)) sel
      | .ITEM_SECTION => if it.children.isEmpty then .next items sel else .enter items sel
  | .back => .exit items
  | .other => .next items sel

/-- The cursor after feeding a sequence of events to the frame loop starting
from cursor `sel`. -/
def cursorAfter (items : List MenuItem) (sel : Nat) : List Event → Nat
  | [] => sel
  | e :: es =>
    match menuStep items sel e with
    | .next items2 sel2 => cursorAfter items2 sel2 es
    | _ => sel

/-! ## Helper lemmas -/

theorem list_set_of_getElem? {α : Type _} {l : List α} {n : Nat} {a : α}
    (h : l[n]? = some a) : l.set n a = l := by
  induction l generalizing n with
  | nil => simp at h
  | cons x xs ih =>
    cases n with
    | zero =>
      simp at h
      simp [h]
    | succ m =>
      simp at h
      simpa using ih h

theorem foldl_join (cmds : List String) (acc : String) (h : cmds ≠ []) :
    cmds.foldl (fun a c => a ++ c ++ " && ") acc = acc ++ joinedWithAnd cmds ++ " && " := by
  induction cmds generalizing acc with
  | nil => exact absurd rfl h
  | cons c rest ih =>
    cases rest with
    | nil => simp [joinedWithAnd]
    | cons d rest2 =>
      rw [List.foldl_cons, ih (acc ++ c ++ " && ") (by simp)]
      simp [joinedWithAnd, String.append_assoc]

theorem shJoin_eq_joined (cmds : List String) : shJoin cmds = joinedWithAnd cmds := by
  cases cmds with
  | nil => rfl
  | cons c rest =>
    show (let script := (c :: rest).foldl (fun a cm => a ++ cm ++ " && ") ""
      if script.isEmpty then script
      else (⟨script.data.take (script.data.length - 4)⟩ : String)) = _
    rw [foldl_join (c :: rest) "" (by simp)]
    have hne : ("" ++ joinedWithAnd (c :: rest) ++ " && ") ≠ "" := by
      intro heq
      have hlen := congrArg String.length heq
      rw [String.length_append, String.length_append] at hlen
      have h4 : (" && " : String).length = 4 := rfl
      have h0 : ("" : String).length = 0 := rfl
      omega
    have hempty : ("" ++ joinedWithAnd (c :: rest) ++ " && ").isEmpty = false := by
      rcases hb : ("" ++ joinedWithAnd (c :: rest) ++ " && ").isEmpty with _ | _
      · rfl
      · exact absurd ((String.isEmpty_iff _).1 hb) hne
    simp only [hempty, Bool.false_eq_true, if_false]
    have hdata : ("" ++ joinedWithAnd (c :: rest) ++ " && ").data
        = (joinedWithAnd (c :: rest)).data ++ [' ', '&', '&', ' '] := by
      rw [String.data_append]
      rfl
    rw [hdata]
    have hlen2 : ((joinedWithAnd (c :: rest)).data ++ [' ', '&', '&', ' ']).length - 4
        = (joinedWithAnd (c :: rest)).data.length := by
      simp
    rw [hlen2]
    rw [show (joinedWithAnd (c :: rest)).data.length
        = ((joinedWithAnd (c :: rest)).data).length from rfl]
    rw [List.take_left]

/-! ## Claim C5: action rendering -/

/-- C5: a `PackageInstall` (YayAction) renders to the AUR-manager invocation,
`" -S "` and the package name; a `ShellScript` (ShAction) renders to its
commands joined with `" && "`, after which every occurrence of the
package-manager alias token is replaced by the AUR-manager invocation and
every occurrence of the notification alias token by the notification
invocation. -/
theorem render_contract :
    (∀ n, Action.render (.yay n) = AUR_MANAGER ++ " -S " ++ n) ∧
    (∀ cmds, Action.render (.sh cmds) =
      ((joinedWithAnd cmds).replace AUR_MANAGER_ALIAS AUR_MANAGER).replace
        NOTIFY_COMMAND_ALIAS NOTIFY_COMMAND) := by
  constructor
  · intro n
    rfl
  · intro cmds
    show ((shJoin cmds).replace AUR_MANAGER_ALIAS AUR_MANAGER).replace
        NOTIFY_COMMAND_ALIAS NOTIFY_COMMAND = _
    rw [shJoin_eq_joined]

/-! ## Claim C2: non-mapping top level -/

/-- C2 counterexample: a document whose top level is a sequence does not make
tree building fail; `parse_root` succeeds with the empty forest (and the
program then shows the UI on that empty menu). -/
theorem nonmap_root_no_error_cex :
    parse_root (Yaml.seq [Yaml.scalar "x"]) = .ok ([] : List MenuItem) := by
  simp [parse_root]

/-- C2 (amended): for every configuration document whose top level is not a
mapping, tree building does not fail: `parse_root` returns the empty forest
and `parse_after` the empty trailing-command list (so the UI is entered with
an empty menu rather than exiting with a `ConfigError`). -/
theorem nonmap_root_empty_forest (y : Yaml) (h : y.isMap = false) :
    parse_root y = .ok ([] : List MenuItem) ∧ parse_after y = [] := by
  cases y with
  | map kvs => simp [Yaml.isMap] at h
  | scalar s => exact ⟨rfl, rfl⟩
  | seq xs => exact ⟨rfl, rfl⟩
  | null => exact ⟨rfl, rfl⟩

theorem nonmap_root_empty_forest_witness :
    parse_root Yaml.null = .ok ([] : List MenuItem) ∧ parse_after Yaml.null = [] :=
  nonmap_root_empty_forest Yaml.null rfl

/-! ## Claim C10: Activate on an empty menu -/

/-- C10: evaluating the navigation loop at the failing input: on the empty
root forest (a document yielding no parsable sections), an Activate event at
cursor 0 performs the bounds-violating `items->at(0)` access, modelled as
`.oob` (`std::vector::at` throws `std::out_of_range`, which is uncaught). -/
theorem empty_menu_activate_oob :
    menuStep ([] : List MenuItem) 0 Event.activate = .oob := rfl

/-! ## Claim C7: toggle idempotence -/

theorem toggleChecked_type (it : MenuItem) : (toggleChecked it).type = it.type := by
  cases it
  rfl

theorem toggleChecked_checked (it : MenuItem) : (toggleChecked it).checked = !it.checked := by
  cases it
  rfl

theorem toggleChecked_toggleChecked (it : MenuItem) : toggleChecked (toggleChecked it) = it := by
  cases it
  simp [toggleChecked]

/-- C7: an Activate event on a checkbox at the cursor performs exactly one
flip of its `checked` flag (replacing just that node), and a second
consecutive Activate on the same checkbox restores the frame — and hence the
checkbox's `checked` flag — to its original state. -/
theorem activate_toggle_involutive (items : List MenuItem) (sel : Nat) (it : MenuItem)
    (hget : items[sel]? = some it) (hty : it.type = ItemType.ITEM_CHECKBOX) :
    menuStep items sel .activate = .next (items.set sel (toggleChecked it)) sel ∧
    (items.set sel (toggleChecked it))[sel]? = some (toggleChecked it) ∧
    (toggleChecked it).checked = !it.checked ∧
    menuStep (items.set sel (toggleChecked it)) sel .activate = .next items sel := by
  have hget2 : (items.set sel (toggleChecked it))[sel]? = some (toggleChecked it) := by
    rw [List.getElem?_set_self', hget]
    rfl
  refine ⟨?_, hget2, toggleChecked_checked it, ?_⟩
  · simp [menuStep, hget, hty]
  · simp [menuStep, hget2, toggleChecked_type, hty, List.set_set,
      toggleChecked_toggleChecked, list_set_of_getElem? hget]

theorem activate_toggle_involutive_witness :
    menuStep [MenuItem.mk "x" .ITEM_CHECKBOX true [] none] 0 .activate
      = .next ([MenuItem.mk "x" .ITEM_CHECKBOX true [] none].set 0
          (toggleChecked (MenuItem.mk "x" .ITEM_CHECKBOX true [] none))) 0 ∧
    ([MenuItem.mk "x" .ITEM_CHECKBOX true [] none].set 0
        (toggleChecked (MenuItem.mk "x" .ITEM_CHECKBOX true [] none)))[0]?
      = some (toggleChecked (MenuItem.mk "x" .ITEM_CHECKBOX true [] none)) ∧
    (toggleChecked (MenuItem.mk "x" .ITEM_CHECKBOX true [] none)).checked
      = !(MenuItem.mk "x" .ITEM_CHECKBOX true [] none).checked ∧
    menuStep ([MenuItem.mk "x" .ITEM_CHECKBOX true [] none].set 0
        (toggleChecked (MenuItem.mk "x" .ITEM_CHECKBOX true [] none))) 0 .activate
      = .next [MenuItem.mk "x" .ITEM_CHECKBOX true [] none] 0 :=
  activate_toggle_involutive [MenuItem.mk "x" .ITEM_CHECKBOX true [] none] 0
    (MenuItem.mk "x" .ITEM_CHECKBOX true [] none) rfl rfl

/-! ## Claim C8: cursor clamping -/

theorem cursorAfter_le (items : List MenuItem) (es : List Event) (sel : Nat)
    (hsel : sel ≤ items.length - 1)
    (hmoves : ∀ e ∈ es, e = Event.up ∨ e = Event.down) :
    cursorAfter items sel es ≤ items.length - 1 := by
  induction es generalizing sel with
  | nil => simpa [cursorAfter]
  | cons e es ih =>
    have hrest : ∀ e2 ∈ es, e2 = Event.up ∨ e2 = Event.down :=
      fun e2 he2 => hmoves e2 (List.mem_cons_of_mem e he2)
    rcases hmoves e (List.mem_cons_self e es) with he | he <;> subst he
    · simp only [cursorAfter, menuStep]
      exact ih _ (by split <;> omega) hrest
    · simp only [cursorAfter, menuStep]
      exact ih _ (by split <;> omega) hrest

/-- C8: starting from cursor 0, any sequence of MoveUp/MoveDown events keeps
the cursor within `[0, len − 1]`; a single MoveUp takes the cursor to
`max(cursor − 1, 0)` and a single MoveDown (from an in-range cursor) to
`min(cursor + 1, len − 1)`. -/
theorem cursor_clamping (items : List MenuItem) (es : List Event)
    (hne : items ≠ []) (hmoves : ∀ e ∈ es, e = Event.up ∨ e = Event.down) :
    cursorAfter items 0 es ≤ items.length - 1 ∧
    (∀ sel, menuStep items sel .up = .next items (max (sel - 1) 0)) ∧
    (∀ sel, sel ≤ items.length - 1 →
      menuStep items sel .down = .next items (min (sel + 1) (items.length - 1))) := by
  refine ⟨cursorAfter_le items es 0 (Nat.zero_le _) hmoves, ?_, ?_⟩
  · intro sel
    simp only [menuStep]
    congr 1
    split <;> omega
  · intro sel hsel
    have hlen : items.length ≠ 0 := fun h => hne (List.length_eq_zero.1 h)
    simp only [menuStep]
    congr 1
    split <;> omega

theorem cursor_clamping_witness :
    cursorAfter [MenuItem.mk "x" .ITEM_CHECKBOX true [] none] 0 [Event.down, Event.up]
      ≤ [MenuItem.mk "x" .ITEM_CHECKBOX true [] none].length - 1 :=
  (cursor_clamping [MenuItem.mk "x" .ITEM_CHECKBOX true [] none] [Event.down, Event.up]
    (by simp) (by decide)).1

/-! ## Claim C9: default-checked invariant -/

/-- The guard of line 89: the mapping carries a scalar `enabled` field. -/
def enabledIsScalar (kvs : List (Yaml × Yaml)) : Bool :=
  match lookupYaml kvs "enabled" with
  | some (.scalar _) => true
  | _ => false

/-- C9: a bare scalar item parses with `checked = true`; a mapping item with a
scalar `name` whose `enabled` field is absent or non-scalar parses with
`checked = true`; and when a scalar `enabled` field is present and converts to
a boolean, `checked` equals that boolean. -/
theorem default_checked_invariant (kvs : List (Yaml × Yaml)) (n : String)
    (hname : lookupYaml kvs "name" = some (.scalar n)) :
    (∀ s, (parse_item (Yaml.scalar s)).map MenuItem.checked = .ok true) ∧
    (enabledIsScalar kvs = false →
      (parse_item (Yaml.map kvs)).map MenuItem.checked = .ok true) ∧
    (∀ e b, lookupYaml kvs "enabled" = some (.scalar e) → yamlAsBool e = some b →
      (parse_item (Yaml.map kvs)).map MenuItem.checked = .ok b) := by
  refine ⟨fun s => rfl, ?_, ?_⟩
  · intro hen
    rcases hl : lookupYaml kvs "enabled" with _ | y
    · simp [parse_item, hname, hl, Except.map, Bind.bind, Except.bind, MenuItem.checked]
    · cases y with
      | scalar e => simp [enabledIsScalar, hl] at hen
      | seq xs =>
        simp [parse_item, hname, hl, Except.map, Bind.bind, Except.bind, MenuItem.checked]
      | map kvs2 =>
        simp [parse_item, hname, hl, Except.map, Bind.bind, Except.bind, MenuItem.checked]
      | null =>
        simp [parse_item, hname, hl, Except.map, Bind.bind, Except.bind, MenuItem.checked]
  · intro e b hl hb
    simp [parse_item, hname, hl, hb, Except.map, Bind.bind, Except.bind, MenuItem.checked]

theorem default_checked_invariant_witness :
    (parse_item (Yaml.map [(Yaml.scalar "name", Yaml.scalar "x"),
        (Yaml.scalar "enabled", Yaml.scalar "false")])).map MenuItem.checked
      = .ok false ∧
    (parse_item (Yaml.map [(Yaml.scalar "name", Yaml.scalar "y")])).map MenuItem.checked
      = .ok true ∧
    (parse_item (Yaml.scalar "vim")).map MenuItem.checked = .ok true :=
  ⟨(default_checked_invariant [(Yaml.scalar "name", Yaml.scalar "x"),
      (Yaml.scalar "enabled", Yaml.scalar "false")] "x" rfl).2.2 "false" false rfl rfl,
   (default_checked_invariant [(Yaml.scalar "name", Yaml.scalar "y")] "y" rfl).2.1 rfl,
   (default_checked_invariant [(Yaml.scalar "name", Yaml.scalar "y")] "y" rfl).1 "vim"⟩

/-! ## Claim C3: mapping items without a scalar name -/

/-- The guard of line 84: the mapping carries a scalar `name` field. -/
def hasScalarName (kvs : List (Yaml × Yaml)) : Bool :=
  match lookupYaml kvs "name" with
  | some (.scalar _) => true
  | _ => false

theorem parse_item_list_append (xs ys : List Yaml) (r1 r2 : List MenuItem)
    (h1 : parse_item_list xs = .ok r1) (h2 : parse_item_list ys = .ok r2) :
    parse_item_list (xs ++ ys) = .ok (r1 ++ r2) := by
  induction xs generalizing r1 with
  | nil =>
    simp only [parse_item_list] at h1
    cases h1
    simpa using h2
  | cons x xs ih =>
    simp only [parse_item_list, Bind.bind, Except.bind] at h1 ⊢
    cases hx : parse_item x with
    | error e => rw [hx] at h1; cases h1
    | ok i =>
      rw [hx] at h1
      cases hxs : parse_item_list xs with
      | error e => rw [hxs] at h1; cases h1
      | ok rest =>
        rw [hxs] at h1
        cases h1
        rw [List.cons_append]
        simp only [List.append_eq]
        rw [ih rest hxs]

/-- C3 counterexample: the malformed item `{enabled: true}` (no `name`) inside
a section's `items` sequence is not dropped: the parsed section's children
contain the default-constructed placeholder node for it (empty label, no
action) in front of the remaining valid item. -/
theorem nameless_item_node_appears_cex :
    parse_section (Yaml.map [(Yaml.scalar "sec", Yaml.map [(Yaml.scalar "items",
        Yaml.seq [Yaml.map [(Yaml.scalar "enabled", Yaml.scalar "true")], Yaml.scalar "vim"])])])
      = .ok [MenuItem.mk "sec" .ITEM_SECTION true
          [defaultMenuItem, MenuItem.mk "vim" .ITEM_CHECKBOX true [] (some (.yay "vim"))] none] := by
  simp [parse_section, parse_entries, parse_subsections, parse_items_node,
    parse_item_list, parse_item, lookupYaml, Yaml.get, Yaml.isScalarEq,
    defaultMenuItem, scalarsOf, Bind.bind, Except.bind, Pure.pure, Except.pure]

/-- C3 (amended): a mapping item without a scalar `name` field is not dropped:
`parse_item` yields the default-constructed placeholder node (empty label,
checkbox, checked, no action — so it contributes no command), which takes the
item's place among the parsed items; the surrounding valid items are
unaffected and keep their original relative order. -/
theorem nameless_item_yields_placeholder (kvs : List (Yaml × Yaml))
    (pre suf : List Yaml) (r1 r2 : List MenuItem)
    (hname : hasScalarName kvs = false)
    (h1 : parse_item_list pre = .ok r1) (h2 : parse_item_list suf = .ok r2) :
    parse_item (Yaml.map kvs) = .ok defaultMenuItem ∧
    parse_item_list (pre ++ Yaml.map kvs :: suf) = .ok (r1 ++ defaultMenuItem :: r2) := by
  have hitem : parse_item (Yaml.map kvs) = .ok defaultMenuItem := by
    rcases hl : lookupYaml kvs "name" with _ | y
    · simp [parse_item, hl]
    · cases y with
      | scalar n => simp [hasScalarName, hl] at hname
      | seq xs => simp [parse_item, hl]
      | map k2 => simp [parse_item, hl]
      | null => simp [parse_item, hl]
  refine ⟨hitem, ?_⟩
  have hmid : parse_item_list (Yaml.map kvs :: suf) = .ok (defaultMenuItem :: r2) := by
    simp [parse_item_list, Bind.bind, Except.bind, hitem, h2]
  exact parse_item_list_append pre _ r1 _ h1 hmid

theorem nameless_item_yields_placeholder_witness :
    parse_item (Yaml.map [(Yaml.scalar "enabled", Yaml.scalar "true")]) = .ok defaultMenuItem ∧
    parse_item_list ([Yaml.scalar "vim"]
        ++ Yaml.map [(Yaml.scalar "enabled", Yaml.scalar "true")] :: [Yaml.scalar "git"])
      = .ok ([MenuItem.mk "vim" .ITEM_CHECKBOX true [] (some (.yay "vim"))]
          ++ defaultMenuItem :: [MenuItem.mk "git" .ITEM_CHECKBOX true [] (some (.yay "git"))]) :=
  nameless_item_yields_placeholder [(Yaml.scalar "enabled", Yaml.scalar "true")]
    [Yaml.scalar "vim"] [Yaml.scalar "git"]
    [MenuItem.mk "vim" .ITEM_CHECKBOX true [] (some (.yay "vim"))]
    [MenuItem.mk "git" .ITEM_CHECKBOX true [] (some (.yay "git"))] rfl rfl rfl

/-! ## Claim C4: nested `sections` values -/

/-- C4 counterexample: inside a section body, a `sections` entry whose value
is a mapping (a nested section group) is not recursively parsed: the parsed
parent Section has no children at all. -/
theorem mapping_subsections_ignored_cex :
    parse_section (Yaml.map [(Yaml.scalar "top", Yaml.map [(Yaml.scalar "sections",
        Yaml.map [(Yaml.scalar "sub", Yaml.map [])])])])
      = .ok [MenuItem.mk "top" .ITEM_SECTION true [] none] := by
  simp [parse_section, parse_entries, parse_subsections, parse_items_node,
    lookupYaml, Yaml.get, Yaml.isScalarEq, Bind.bind, Except.bind]

/-- C4 (amended): within a section body, a `sections` entry whose value is a
sequence of section groups is recursively parsed (each group via
`parse_section`) and flattened into the parent Section's children in
encounter order, ahead of any `items`-derived children; a `sections` entry
whose value is a mapping is ignored at this level (the mapping form is
accepted only at the document's top level). -/
theorem subsections_sequence_flattened (name2 : String) (bodyKvs rest : List (Yaml × Yaml))
    (xs : List Yaml) (subs its tail2 : List MenuItem)
    (hsec : lookupYaml bodyKvs "sections" = some (.seq xs))
    (hsubs : parse_section_list xs = .ok subs)
    (hits : parse_items_node (lookupYaml bodyKvs "items") = .ok its)
    (htail : parse_entries rest = .ok tail2) :
    parse_entries ((Yaml.scalar name2, Yaml.map bodyKvs) :: rest)
      = .ok (MenuItem.mk name2 .ITEM_SECTION true (subs ++ its) none :: tail2) ∧
    (∀ x xs2 r r2, parse_section x = .ok r → parse_section_list xs2 = .ok r2 →
      parse_section_list (x :: xs2) = .ok (r ++ r2)) ∧
    (∀ mkvs, parse_subsections (some (Yaml.map mkvs)) = .ok ([] : List MenuItem)) := by
  refine ⟨?_, ?_, ?_⟩
  · simp only [parse_entries, Yaml.get, hsec, hits, htail, parse_subsections, hsubs,
      Bind.bind, Except.bind]
  · intro x xs2 r r2 hr hr2
    simp only [parse_section_list, Bind.bind, Except.bind, hr, hr2]
  · intro mkvs
    simp [parse_subsections]

theorem subsections_sequence_flattened_witness :
    parse_entries ((Yaml.scalar "top",
        Yaml.map [(Yaml.scalar "sections", Yaml.seq [Yaml.map [(Yaml.scalar "sub", Yaml.map [])]])]) :: [])
      = .ok (MenuItem.mk "top" .ITEM_SECTION true
          ([MenuItem.mk "sub" .ITEM_SECTION true [] none] ++ []) none :: []) :=
  (subsections_sequence_flattened "top"
    [(Yaml.scalar "sections", Yaml.seq [Yaml.map [(Yaml.scalar "sub", Yaml.map [])]])] []
    [Yaml.map [(Yaml.scalar "sub", Yaml.map [])]]
    [MenuItem.mk "sub" .ITEM_SECTION true [] none] [] []
    rfl
    (by simp [parse_section_list, parse_section, parse_entries, parse_subsections,
      parse_items_node, Yaml.get, lookupYaml, Yaml.isScalarEq, Bind.bind, Except.bind])
    rfl
    (by simp [parse_entries])).1

/-! ## Claim C6: single (non-sequence) `items` values -/

/-- C6 counterexample: an `items` entry whose value is a single mapping item
(not wrapped in a sequence) is ignored: the parsed Section has no Checkbox
child for it. -/
theorem single_mapping_item_ignored_cex :
    parse_section (Yaml.map [(Yaml.scalar "s", Yaml.map [(Yaml.scalar "items",
        Yaml.map [(Yaml.scalar "name", Yaml.scalar "x")])])])
      = .ok [MenuItem.mk "s" .ITEM_SECTION true [] none] := by
  simp [parse_section, parse_entries, parse_subsections, parse_items_node,
    lookupYaml, Yaml.get, Yaml.isScalarEq, Bind.bind, Except.bind]

/-- C6 (amended): an `items` entry whose value is a single scalar item (not a
sequence) is parsed into a Checkbox child of the Section exactly as a
sequence element would be; but a single mapping item not wrapped in a
sequence is ignored — of the two item forms, only the bare scalar is accepted
as a single `items` value. -/
theorem single_scalar_item_parsed (name2 s : String) :
    parse_section (Yaml.map [(Yaml.scalar name2,
        Yaml.map [(Yaml.scalar "items", Yaml.scalar s)])])
      = .ok [MenuItem.mk name2 .ITEM_SECTION true
          [MenuItem.mk s .ITEM_CHECKBOX true [] (some (.yay s))] none] ∧
    (∀ mkvs, parse_items_node (some (Yaml.map mkvs)) = .ok ([] : List MenuItem)) ∧
    (∀ xs, parse_items_node (some (Yaml.seq xs)) = parse_item_list xs) := by
  refine ⟨?_, fun mkvs => rfl, fun xs => rfl⟩
  simp [parse_section, parse_entries, parse_subsections, parse_items_node,
    parse_item, lookupYaml, Yaml.get, Yaml.isScalarEq, Bind.bind, Except.bind,
    Pure.pure, Except.pure]

/-! ## Claim C1: collector order preservation -/

mutual

theorem collect_item_eq_spec (it : MenuItem) :
    collect_item it = (dfsCheckboxes it).filterMap renderIfChecked := by
  cases it with
  | mk l t c ch a =>
    cases t with
    | ITEM_CHECKBOX =>
      cases a with
      | none =>
        cases c <;> simp [collect_item, dfsCheckboxes, renderIfChecked,
          MenuItem.action, MenuItem.checked]
      | some act =>
        cases c <;> simp [collect_item, dfsCheckboxes, renderIfChecked,
          MenuItem.action, MenuItem.checked]
    | ITEM_SECTION =>
      simp only [collect_item, dfsCheckboxes]
      exact collect_actions_eq_spec ch
termination_by sizeOf it

theorem collect_actions_eq_spec (l : List MenuItem) :
    collect_actions l = (dfsCheckboxesList l).filterMap renderIfChecked := by
  cases l with
  | nil => simp [collect_actions, dfsCheckboxesList]
  | cons it rest =>
    simp only [collect_actions, dfsCheckboxesList, List.filterMap_append]
    rw [collect_item_eq_spec it, collect_actions_eq_spec rest]
termination_by sizeOf l

end

mutual

theorem collect_item_unchecked (it : MenuItem) (h : allUnchecked it = true) :
    collect_item it = [] := by
  cases it with
  | mk l t c ch a =>
    rw [allUnchecked.eq_def] at h
    cases t with
    | ITEM_CHECKBOX =>
      simp only [Bool.and_eq_true, Bool.not_eq_true'] at h
      rcases h with ⟨h1, h2⟩
      subst h1
      simp [collect_item]
    | ITEM_SECTION =>
      simp only [Bool.and_eq_true, true_and] at h
      simp only [collect_item]
      exact collect_actions_unchecked ch h
termination_by sizeOf it

theorem collect_actions_unchecked (l : List MenuItem) (h : allUncheckedList l = true) :
    collect_actions l = [] := by
  cases l with
  | nil => rw [collect_actions]
  | cons it rest =>
    rw [allUncheckedList] at h
    rcases Bool.and_eq_true_iff.1 h with ⟨h1, h2⟩
    rw [collect_actions, collect_item_unchecked it h1, collect_actions_unchecked rest h2]
    rfl
termination_by sizeOf l

end

/-- C1: the final command list is the depth-first, document-order rendering of
exactly the checked Checkbox leaves that carry an action (Sections recursed
into regardless of any checked state, unchecked Checkboxes contributing
nothing), followed by the trailing commands verbatim in their declared order;
in particular, with every checkbox unchecked and trailing commands
`["echo done"]`, the final sequence is exactly `["echo done"]`. -/
theorem collector_order_preservation (forest : List MenuItem) (trailing : List String) :
    final_commands forest trailing = specFinalCommands forest trailing ∧
    (allUncheckedList forest = true → final_commands forest ["echo done"] = ["echo done"]) := by
  constructor
  · unfold final_commands specFinalCommands
    rw [collect_actions_eq_spec]
  · intro h
    unfold final_commands
    rw [collect_actions_unchecked forest h]
    rfl

theorem collector_order_preservation_witness :
    final_commands [MenuItem.mk "a" .ITEM_CHECKBOX false [] (some (.yay "a"))] ["echo done"]
      = ["echo done"] :=
  (collector_order_preservation [MenuItem.mk "a" .ITEM_CHECKBOX false [] (some (.yay "a"))]
    ["echo done"]).2 (by simp [allUncheckedList, allUnchecked])

end ArchPostInstall
